import Mathlib

/-!
Shallow embedding of the trust/lifecycle core of the proofage repository
(`services/proof-api/src/server.ts` and the bootstrap seed script), together
with theorems settling the specification claims.

Conventions of the embedding:
* Databases (Prisma tables) are modelled as Lean lists of records;
  `findFirst`/`findUnique` become `List.find?`, `update` becomes `List.map`
  over the matching row, `create` appends a row.
* The SHA-256 digest is an external primitive; every definition that uses it
  takes the digest function as an explicit argument `sha256 : String → String`.
* JWT signing/verification (the `jose` library) is modelled by carrying a
  token's decoded payload together with a flag `sigValid` meaning "the token's
  signature verifies under the server's signing key"; `buildAgeAssertion`
  produces tokens with `sigValid = true`.
* Wall-clock instants are `Nat`; JWT second-resolution timestamps are `Int`.
* A fallible external side effect (the `lastUsedAt` update) is modelled by a
  boolean argument saying whether the underlying store call succeeds; an
  uncaught throw surfaces as a distinguished `storageFailure` outcome
  (Fastify turns the uncaught rejection into a 5xx response).
-/

namespace ProofAge

/-- Status of a proof request: the string field `status` of the `ProofRequest`
row, which the server only ever sets to "pending", "passed" or "failed". -/
inductive PStatus
  | pending
  | passed
  | failed
deriving DecidableEq, Repr

/-- A row of the `Merchant` table (the fields the core reads). -/
structure Merchant where
  id : String
  externalRef : String
  name : String
deriving DecidableEq, Repr

/-- A row of the `ApiKey` table. -/
structure ApiKey where
  id : String
  merchantId : String
  keyHash : String
  label : String
  preview : String
  lastUsedAt : Option Nat
  revokedAt : Option Nat
deriving DecidableEq, Repr

/-- The merchant context returned by successful authentication
(`type MerchantContext` in server.ts). -/
structure MerchantContext where
  merchantId : String
  merchantExternalRef : String
deriving DecidableEq, Repr

/-- Outcome of `authenticateMerchant`.  `missingApiKey` and `invalidApiKey`
are the two 401 responses; `storageFailure` is an uncaught exception from the
store (surfaced by the framework as a 5xx response, authentication does not
complete). -/
inductive AuthOutcome
  | missingApiKey
  | invalidApiKey
  | storageFailure
  | ok (ctx : MerchantContext)
deriving DecidableEq, Repr

/-- Model of `authenticateMerchant` from server.ts: hash the presented header value,
find an ApiKey row with that hash and `revokedAt` unset (joined with its
merchant), then unconditionally `await` an update of `lastUsedAt` — the update
is NOT wrapped in try/catch, so a failing update propagates
(`updateSucceeds = false` yields `storageFailure`).  Returns the outcome and
the resulting ApiKey table. -/
def authenticateMerchant (sha256 : String → String) (keys : List ApiKey)
    (merchants : List Merchant) (apiKeyHeader : Option String)
    (updateSucceeds : Bool) (now : Nat) : AuthOutcome × List ApiKey :=
  match apiKeyHeader with
  | none => (.missingApiKey, keys)
  | some apiKey =>
    match keys.find? (fun k =>
        k.keyHash == sha256 apiKey && k.revokedAt.isNone) with
    | none => (.invalidApiKey, keys)
    | some keyRecord =>
      match merchants.find? (fun m => m.id == keyRecord.merchantId) with
      | none => (.storageFailure, keys)
      | some merchant =>
        if updateSucceeds then
          (.ok ⟨keyRecord.merchantId, merchant.externalRef⟩,
           keys.map (fun k =>
             if k.id = keyRecord.id then { k with lastUsedAt := some now } else k))
        else
          (.storageFailure, keys)

/-- The zod `cuid` format check used by `merchantApiKeyParamsSchema`:
a leading `c` (case-insensitive) followed by at least 8 characters that are
neither whitespace nor a hyphen. -/
def isCuid (s : String) : Bool :=
  match s.data with
  | [] => false
  | c :: rest =>
    (c == 'c' || c == 'C') && rest.length ≥ 8 &&
      rest.all (fun ch => !ch.isWhitespace && ch != '-')

/-- Outcome of the `POST /v1/merchant/api-keys/:apiKeyId/revoke` handler
(after authentication). -/
inductive RevokeOutcome
  | invalidParams
  | notFound
  | cannotRevokeCurrentKey
  | okAlreadyRevoked
  | okRevoked (apiKeyId : String)
deriving DecidableEq, Repr

/-- The revoke handler from server.ts: validate the `apiKeyId` param (cuid),
find the key scoped to the authenticated merchant, refuse to revoke the key
currently authenticating the caller (409), report already-revoked keys as an
idempotent success without change, otherwise set `revokedAt`. -/
def revokeKey (sha256 : String → String) (keys : List ApiKey)
    (ctx : MerchantContext) (apiKeyIdParam : String)
    (currentApiKeyHeader : Option String) (now : Nat) :
    RevokeOutcome × List ApiKey :=
  if !(isCuid apiKeyIdParam) then (.invalidParams, keys)
  else
    match keys.find? (fun k =>
        k.id == apiKeyIdParam && k.merchantId == ctx.merchantId) with
    | none => (.notFound, keys)
    | some target =>
      if (match currentApiKeyHeader with
          | some cur => sha256 cur == target.keyHash
          | none => false) then
        (.cannotRevokeCurrentKey, keys)
      else if target.revokedAt.isSome then
        (.okAlreadyRevoked, keys)
      else
        (.okRevoked target.id,
         keys.map (fun k =>
           if k.id = target.id then { k with revokedAt := some now } else k))

/-- Outcome of the `POST /v1/merchant/api-keys` handler (after
authentication).  `uniqueViolation` models the Prisma error thrown when the
insert hits the unique constraint on `keyHash`. -/
inductive CreateKeyOutcome
  | invalidRequest
  | uniqueViolation
  | created (apiKeyId : String)
deriving DecidableEq, Repr

/-- The API-key creation handler from server.ts: validate the label
(2–64 chars, default "manual" handled by the caller), hash a freshly
generated plaintext and insert the row.  Modelled from the spec: the
`keyHash` column carries a storage-level uniqueness constraint (the Prisma
schema is not part of the sources; the spec states "the hash is unique
across all keys system-wide", and the seed script upserts `where {keyHash}`),
so an insert with an existing hash is rejected. -/
def createApiKey (sha256 : String → String) (keys : List ApiKey)
    (ctx : MerchantContext) (label : String) (plaintext : String)
    (freshId : String) : CreateKeyOutcome × List ApiKey :=
  if label.length < 2 || label.length > 64 then (.invalidRequest, keys)
  else if keys.any (fun k => k.keyHash == sha256 plaintext) then
    (.uniqueViolation, keys)
  else
    (.created freshId,
     keys ++ [{ id := freshId, merchantId := ctx.merchantId,
                keyHash := sha256 plaintext, label,
                preview := plaintext.take 8 ++ "..." ++ plaintext.takeRight 4,
                lastUsedAt := none, revokedAt := none }])

/-- The `apiKey.upsert` of the bootstrap seed script (src/unnamed/part_001):
keyed by `keyHash`; when a row with the hash exists it is UPDATED with
`label := "bootstrap"`, a fresh preview, `revokedAt := null` and the bootstrap
merchant's id — clearing any revocation; otherwise a fresh active row is
created.  The script aborts first when the bootstrap key is shorter than
16 characters (`none`). -/
def seedApiKeyUpsert (sha256 : String → String) (keys : List ApiKey)
    (apiKey : String) (merchantId : String) (freshId : String) :
    Option (List ApiKey) :=
  if apiKey.length < 16 then none
  else
    let keyHash := sha256 apiKey
    let preview := apiKey.take 6 ++ "..." ++ apiKey.takeRight 4
    if keys.any (fun k => k.keyHash == keyHash) then
      some (keys.map (fun k =>
        if k.keyHash == keyHash then
          { k with label := "bootstrap", preview := preview,
                   revokedAt := none, merchantId := merchantId }
        else k))
    else
      some (keys ++ [{ id := freshId, merchantId, keyHash,
                       label := "bootstrap", preview := preview,
                       lastUsedAt := none, revokedAt := none }])

/-- One server-API operation that touches the ApiKey table (authentication,
key creation, key revocation), with the nondeterministic inputs of the
operation made explicit. -/
inductive ServerKeyOp
  | auth (header : Option String) (updateSucceeds : Bool) (now : Nat)
  | createKey (ctx : MerchantContext) (label plaintext freshId : String)
  | revoke (ctx : MerchantContext) (apiKeyIdParam : String)
      (header : Option String) (now : Nat)

/-- Effect of one server-API operation on the ApiKey table. -/
def applyServerKeyOp (sha256 : String → String) (merchants : List Merchant)
    (keys : List ApiKey) : ServerKeyOp → List ApiKey
  | .auth header updateSucceeds now =>
    (authenticateMerchant sha256 keys merchants header updateSucceeds now).2
  | .createKey ctx label plaintext freshId =>
    (createApiKey sha256 keys ctx label plaintext freshId).2
  | .revoke ctx apiKeyIdParam header now =>
    (revokeKey sha256 keys ctx apiKeyIdParam header now).2

/-- A presented credential hashing to `h` is dead in `keys`: some key carries
the hash (so the unique constraint blocks re-creating it) and every key
carrying it is revoked. -/
def hashFullyRevoked (keys : List ApiKey) (h : String) : Prop :=
  (∃ k ∈ keys, k.keyHash = h) ∧ ∀ k ∈ keys, k.keyHash = h → k.revokedAt ≠ none

/-- Hexadecimal digit, as accepted by the zod uuid format. -/
def isHexDigit (c : Char) : Bool :=
  c.isDigit || ('a' ≤ c && c ≤ 'f') || ('A' ≤ c && c ≤ 'F')

/-- The zod `uuid` format check (`z.string().uuid()`): 36 characters,
hyphens at positions 8, 13, 18 and 23, hex digits elsewhere. -/
def isUuid (s : String) : Bool :=
  let cs := s.data
  cs.length == 36 &&
    (List.range 36).all (fun i =>
      let c := cs.getD i ' '
      if i == 8 || i == 13 || i == 18 || i == 23 then c == '-' else isHexDigit c)

/-- A row of the `ProofRequest` table (the fields the core reads). -/
structure ProofRequest where
  id : String
  merchantId : String
  subjectRef : String
  minAge : Int
  status : PStatus
  verifierRef : Option String
deriving DecidableEq, Repr

/-- Model of `requestSchema` from server.ts: `subjectRef` is a string of length at
least 3, `minAge` an integer between 13 and 25 inclusive (defaulting to 18
when absent; the default is applied by the caller `createRequest`). -/
def requestBodyValid (subjectRef : String) (minAge : Int) : Bool :=
  subjectRef.length ≥ 3 && 13 ≤ minAge && minAge ≤ 25

/-- Outcome of the `POST /v1/proof/request` handler (after authentication). -/
inductive CreateRequestOutcome
  | invalidRequest
  | created (proofRequestId : String) (merchantExternalRef : String)
      (status : PStatus)
deriving DecidableEq, Repr

/-- The proof-request creation handler from server.ts: validate the body
against `requestSchema` (zod applies the `minAge` default of 18 when the
field is absent), then insert a row with status `pending` owned by the
authenticated merchant; the 201 response carries the new id, the merchant's
external reference and the status. -/
def createRequest (db : List ProofRequest) (ctx : MerchantContext)
    (subjectRef : String) (minAge : Option Int) (freshId : String) :
    CreateRequestOutcome × List ProofRequest :=
  let age := minAge.getD 18
  if requestBodyValid subjectRef age then
    (.created freshId ctx.merchantExternalRef .pending,
     db ++ [{ id := freshId, merchantId := ctx.merchantId, subjectRef,
              minAge := age, status := .pending, verifierRef := none }])
  else
    (.invalidRequest, db)

/-- The `result` field of `callbackSchema`: `z.enum(["passed", "failed"])`. -/
inductive CallbackResult
  | passed
  | failed
deriving DecidableEq, Repr

/-- The status written by the callback handler for a given callback result. -/
def callbackResultStatus : CallbackResult → PStatus
  | .passed => .passed
  | .failed => .failed

/-- Outcome of the `POST /v1/proof/callback` handler (after the verifier
secret has been accepted). -/
inductive CallbackOutcome
  | invalidCallback
  | notFound
  | ok
deriving DecidableEq, Repr

/-- The verifier-callback handler from server.ts: validate the body against
`callbackSchema` (`proofRequestId` a uuid, `verifierRef` non-empty), look the
request up by id alone (cross-merchant), 404 when absent, otherwise
unconditionally update the row's `status` to the callback result and record
`verifierRef` — no check of the current status. -/
def applyCallback (db : List ProofRequest) (proofRequestId : String)
    (result : CallbackResult) (verifierRef : String) :
    CallbackOutcome × List ProofRequest :=
  if !(isUuid proofRequestId) || verifierRef.length < 1 then
    (.invalidCallback, db)
  else
    match db.find? (fun r => r.id == proofRequestId) with
    | none => (.notFound, db)
    | some _ =>
      (.ok,
       db.map (fun r =>
         if r.id = proofRequestId then
           { r with status := callbackResultStatus result,
                    verifierRef := some verifierRef }
         else r))

/-- Outcome of the `GET /v1/proof/status/:proofRequestId` handler (after
authentication).  Error constructors carry the HTTP status and the `code` and
`message` fields of the response body, so that response equality is literal. -/
inductive StatusOutcome
  | invalidParams (httpStatus : Nat) (code message : String)
  | notFound (httpStatus : Nat) (code message : String)
  | ok (proofRequestId : String) (status : PStatus) (minAge : Int)
      (ageAssertion : Option String)
deriving DecidableEq, Repr

/-- The status handler from server.ts: validate the param (uuid), find the
request scoped to the authenticated merchant (`id` AND `merchantId`), 404
with a fixed body when absent, otherwise return the row's status and minAge
(with the informational `age_over_<minAge>` string when passed). -/
def getStatus (db : List ProofRequest) (ctx : MerchantContext)
    (proofRequestIdParam : String) : StatusOutcome :=
  if !(isUuid proofRequestIdParam) then
    .invalidParams 400 "INVALID_PARAMS" "proofRequestId must be a UUID"
  else
    match db.find? (fun r =>
        r.id == proofRequestIdParam && r.merchantId == ctx.merchantId) with
    | none => .notFound 404 "NOT_FOUND" "proofRequestId not found"
    | some current =>
      .ok current.id current.status current.minAge
        (if current.status = .passed then
          some ("age_over_" ++ toString current.minAge)
        else none)

/-- The decoded payload of a JWT as the verify handler observes it: each
registered or custom claim is optional (absent claims are `none`); claims of
the wrong JSON type are likewise modelled as absent where only a typed read
occurs. -/
structure JwtPayload where
  age_over : Option Int
  nonce : Option String
  proof_request_id : Option String
  verifier_ref : Option String
  iss : Option String
  aud : Option String
  sub : Option String
  jti : Option String
  iat : Option Int
  exp : Option Int
deriving DecidableEq, Repr

/-- A compact signed assertion token: its decoded payload plus whether its
signature verifies under the server's HS256 signing key. -/
structure Assertion where
  payload : JwtPayload
  sigValid : Bool
deriving DecidableEq, Repr

/-- Model of `buildAgeAssertion` from server.ts: sign a JWT whose `age_over` claim is
the proof's `minAge` — never any other value — with the given nonce, the
proof's id and optional verifier ref, issuer `proofage-rail`, audience the
merchant's external reference, subject the proof's `subjectRef`, a fresh jti,
`iat = now` and `exp = now + assertionTtlSeconds`. -/
def buildAgeAssertion (merchantExternalRef : String) (proof : ProofRequest)
    (nonce : String) (now : Int) (assertionTtlSeconds : Int)
    (tokenJti : String) : Assertion :=
  { payload :=
      { age_over := some proof.minAge
        nonce := some nonce
        proof_request_id := some proof.id
        verifier_ref := proof.verifierRef
        iss := some "proofage-rail"
        aud := some merchantExternalRef
        sub := some proof.subjectRef
        jti := some tokenJti
        iat := some now
        exp := some (now + assertionTtlSeconds) }
    sigValid := true }

/-- Outcome of the `GET /v1/proof/assertion/:proofRequestId` handler (after
authentication).  Error constructors carry the HTTP status and the `code`
and `message` fields of the response body. -/
inductive IssueOutcome
  | invalidParams (httpStatus : Nat) (code message : String)
  | notFound (httpStatus : Nat) (code message : String)
  | proofNotPassed (httpStatus : Nat) (code message : String)
  | invalidQuery (httpStatus : Nat) (code message : String)
  | issued (assertion : Assertion) (expiresInSeconds : Int) (nonce : String)
      (claim : String)
deriving DecidableEq, Repr

/-- The assertion-issuance handler from server.ts, in source order: validate
the param (uuid), find the request scoped to the authenticated merchant, 404
when absent, 409 `PROOF_NOT_PASSED` when the status is not `passed`, and only
then validate the `nonce` query parameter (optional, 8–200 chars; a fresh
uuid `generatedNonce` is used when absent) before minting the token. -/
def getAssertion (db : List ProofRequest) (ctx : MerchantContext)
    (proofRequestIdParam : String) (nonceQuery : Option String)
    (generatedNonce : String) (now : Int) (assertionTtlSeconds : Int)
    (freshJti : String) : IssueOutcome :=
  if !(isUuid proofRequestIdParam) then
    .invalidParams 400 "INVALID_PARAMS" "proofRequestId must be a UUID"
  else
    match db.find? (fun r =>
        r.id == proofRequestIdParam && r.merchantId == ctx.merchantId) with
    | none => .notFound 404 "NOT_FOUND" "proofRequestId not found"
    | some current =>
      if current.status ≠ .passed then
        .proofNotPassed 409 "PROOF_NOT_PASSED"
          "Age assertion is available only for passed proofs"
      else
        match nonceQuery with
        | some n =>
          if n.length < 8 || n.length > 200 then
            .invalidQuery 400 "INVALID_QUERY" "Query params are invalid"
          else
            .issued
              (buildAgeAssertion ctx.merchantExternalRef current n now
                assertionTtlSeconds freshJti)
              assertionTtlSeconds n
              ("age_over_" ++ toString current.minAge)
        | none =>
          .issued
            (buildAgeAssertion ctx.merchantExternalRef current generatedNonce
              now assertionTtlSeconds freshJti)
            assertionTtlSeconds generatedNonce
            ("age_over_" ++ toString current.minAge)

/-- The `jwtVerify` call of the verify handler: the token is accepted iff its
signature verifies under the server's signing key, its `iss` claim is the
constant `proofage-rail`, its `aud` claim equals the verifying merchant's
external reference, and it is not expired (`exp`, when present, is strictly
in the future).  On failure the handler cannot tell which sub-check failed
(a single catch). -/
def jwtVerifyCheck (tok : Assertion) (audience : String) (now : Int) :
    Option JwtPayload :=
  if tok.sigValid && tok.payload.iss == some "proofage-rail" &&
      tok.payload.aud == some audience &&
      (match tok.payload.exp with
       | none => true
       | some e => decide (now < e)) then
    some tok.payload
  else
    none

/-- The shape `assertionPayloadSchema` parses the payload into. -/
structure ParsedPayload where
  age_over : Int
  nonce : String
  proof_request_id : Option String
  verifier_ref : Option String
deriving DecidableEq, Repr

/-- Model of `assertionPayloadSchema` from server.ts: `age_over` an integer between
13 and 25, `nonce` a string of 8–200 chars, `proof_request_id` an optional
uuid, `verifier_ref` an optional string; other claims pass through
untouched. -/
def parseAssertionPayload (p : JwtPayload) : Option ParsedPayload :=
  match p.age_over, p.nonce with
  | some a, some n =>
    if 13 ≤ a && a ≤ 25 && 8 ≤ n.length && n.length ≤ 200 &&
        (match p.proof_request_id with
         | none => true
         | some s => isUuid s) then
      some { age_over := a, nonce := n, proof_request_id := p.proof_request_id,
             verifier_ref := p.verifier_ref }
    else none
  | _, _ => none

/-- The body of a `POST /v1/relying/verify-assertion` call: the presented
token (decoded view plus the raw string's length, which the body schema
checks), and the other body fields after zod defaults are applied. -/
structure VerifyRequest where
  assertion : Assertion
  assertionLen : Nat
  requiredMinAge : Int
  expectedNonce : String
  expectedSubjectRef : Option String
deriving DecidableEq, Repr

/-- Model of `verifyAssertionSchema` from server.ts: assertion string of at least 20
chars, `requiredMinAge` an integer between 13 and 25 (default 18),
`expectedNonce` 8–200 chars, `expectedSubjectRef` optional with at least
3 chars. -/
def verifyBodyValid (req : VerifyRequest) : Bool :=
  req.assertionLen ≥ 20 && 13 ≤ req.requiredMinAge && req.requiredMinAge ≤ 25 &&
    8 ≤ req.expectedNonce.length && req.expectedNonce.length ≤ 200 &&
    (match req.expectedSubjectRef with
     | none => true
     | some s => 3 ≤ s.length)

/-- A row of the `AssertionUse` replay-ledger table. -/
structure AssertionUse where
  tokenJti : String
  nonce : String
  subjectRef : Option String
  merchantId : String
  proofRequestId : Option String
  expiresAt : Option Int
deriving DecidableEq, Repr

/-- The `assertionUse.create` insert.  Modelled from the spec: the Prisma
schema is not part of the sources; the spec states the token identifier
(`tokenJti`) is unique system-wide and that insertion is the atomic
insert-if-absent claim, so an insert whose `tokenJti` is already present is
rejected with a unique-constraint violation (`none`, Prisma error P2002). -/
def assertionUseCreate (ledger : List AssertionUse) (entry : AssertionUse) :
    Option (List AssertionUse) :=
  if ledger.any (fun u => u.tokenJti == entry.tokenJti) then none
  else some (ledger ++ [entry])

/-- The 200 response body of a successful verification. -/
structure VerifyResult where
  valid : Bool
  meetsMinAge : Bool
  requiredMinAge : Int
  assertedAgeOver : Int
  nonce : String
  subjectRef : Option String
  proofRequestId : Option String
  verifierRef : Option String
  issuer : Option String
  audience : Option String
  issuedAt : Option Int
  expiresAt : Option Int
deriving DecidableEq, Repr

/-- Outcome of the `POST /v1/relying/verify-assertion` handler (after
authentication): body-schema rejection (400 `INVALID_REQUEST`), signature /
issuer / audience / expiry failure (401 `INVALID_ASSERTION`), payload-shape
or jti failure (400 `INVALID_ASSERTION_CLAIMS`), nonce or subject mismatch
(409), replay (409 `ASSERTION_REPLAYED`), or success. -/
inductive VerifyOutcome
  | invalidRequest
  | invalidAssertion
  | invalidClaims
  | nonceMismatch
  | subjectMismatch
  | replayed
  | success (result : VerifyResult)
deriving DecidableEq, Repr

/-- The verify-assertion handler from server.ts, in source order: body
schema, `jwtVerify` (signature, issuer, audience, expiry), payload-shape
parse, nonce comparison, subject comparison (only when `expectedSubjectRef`
was supplied), jti presence and minimal well-formedness (a string of at
least 8 chars), then the atomic ledger insert (a unique violation is the
only path to `ASSERTION_REPLAYED`), and finally the success response with
`meetsMinAge = (age_over ≥ requiredMinAge)`.  Returns the outcome and the
resulting ledger. -/
def verifyAssertion (ledger : List AssertionUse) (ctx : MerchantContext)
    (req : VerifyRequest) (now : Int) : VerifyOutcome × List AssertionUse :=
  if !(verifyBodyValid req) then (.invalidRequest, ledger)
  else
    match jwtVerifyCheck req.assertion ctx.merchantExternalRef now with
    | none => (.invalidAssertion, ledger)
    | some payload =>
      match parseAssertionPayload payload with
      | none => (.invalidClaims, ledger)
      | some parsed =>
        if parsed.nonce ≠ req.expectedNonce then (.nonceMismatch, ledger)
        else if (match req.expectedSubjectRef with
                 | some s => payload.sub != some s
                 | none => false) then (.subjectMismatch, ledger)
        else
          match payload.jti with
          | none => (.invalidClaims, ledger)
          | some tokenJti =>
            if tokenJti.length < 8 then (.invalidClaims, ledger)
            else
              match assertionUseCreate ledger
                  { tokenJti, nonce := parsed.nonce, subjectRef := payload.sub,
                    merchantId := ctx.merchantId,
                    proofRequestId := parsed.proof_request_id,
                    expiresAt := payload.exp } with
              | none => (.replayed, ledger)
              | some ledger2 =>
                (.success
                  { valid := true
                    meetsMinAge := decide (parsed.age_over ≥ req.requiredMinAge)
                    requiredMinAge := req.requiredMinAge
                    assertedAgeOver := parsed.age_over
                    nonce := parsed.nonce
                    subjectRef := payload.sub
                    proofRequestId := parsed.proof_request_id
                    verifierRef := parsed.verifier_ref
                    issuer := payload.iss
                    audience := payload.aud
                    issuedAt := payload.iat
                    expiresAt := payload.exp },
                 ledger2)

/-- Whether a verify outcome is the success response. -/
def isSuccessOutcome : VerifyOutcome → Bool
  | .success _ => true
  | _ => false

/-- The `assertedAgeOver` field of a successful verify response, when the
outcome is a success. -/
def assertedAgeOverOf : VerifyOutcome → Option Int
  | .success r => some r.assertedAgeOver
  | _ => none

/-- The jti claim carried by the token of a verify call. -/
def reqTokenJti (req : VerifyRequest) : Option String :=
  req.assertion.payload.jti

/-! ### Concrete fixtures

Closed instances used to exercise the operations at concrete inputs.
`exHash` is a stand-in injective-on-these-inputs digest function (the digest
is an external primitive; every operation takes it as a parameter). -/

def exHash : String → String := fun s => String.append "sha256_" s

def exMerchantA : Merchant :=
  { id := "merch_a", externalRef := "ext_a", name := "Merchant A" }

def exCtxA : MerchantContext :=
  { merchantId := "merch_a", merchantExternalRef := "ext_a" }

def exCtxB : MerchantContext :=
  { merchantId := "merch_b", merchantExternalRef := "ext_b" }

def exUuidP : String := "11111111-1111-4111-8111-111111111111"

def exUuidJ : String := "22222222-2222-4222-8222-222222222222"

def exKeyActive : ApiKey :=
  { id := "ckey00000001", merchantId := "merch_a",
    keyHash := exHash "secret_key_16chr", label := "bootstrap",
    preview := "secret...6chr", lastUsedAt := none, revokedAt := none }

def exKeysRevoked : List ApiKey :=
  [{ id := "ckey00000001", merchantId := "merch_a",
     keyHash := exHash "secret_key_16chr", label := "bootstrap",
     preview := "secret...6chr", lastUsedAt := none, revokedAt := some 7 }]

def exProofPassed : ProofRequest :=
  { id := exUuidP, merchantId := "merch_a", subjectRef := "user_123",
    minAge := 18, status := .passed, verifierRef := some "verif_001" }

def exProofFailed : ProofRequest :=
  { id := exUuidP, merchantId := "merch_a", subjectRef := "user_123",
    minAge := 18, status := .failed, verifierRef := some "verif_002" }

def exProofPendingA : ProofRequest :=
  { id := exUuidP, merchantId := "merch_a", subjectRef := "user_123",
    minAge := 18, status := .pending, verifierRef := none }

def exProofOtherMerchant : ProofRequest :=
  { id := exUuidP, merchantId := "merch_b", subjectRef := "user_456",
    minAge := 21, status := .passed, verifierRef := none }

def exTok : Assertion :=
  buildAgeAssertion "ext_a" exProofPassed "nonce_1700000000" 1000 600 exUuidJ

def exReq : VerifyRequest :=
  { assertion := exTok, assertionLen := 200, requiredMinAge := 18,
    expectedNonce := "nonce_1700000000", expectedSubjectRef := none }

def exReqN2 : VerifyRequest :=
  { assertion := exTok, assertionLen := 200, requiredMinAge := 18,
    expectedNonce := "nonce_other_9999", expectedSubjectRef := none }

def exParsed1 : ParsedPayload :=
  { age_over := 18, nonce := "nonce_1700000000",
    proof_request_id := some exUuidP, verifier_ref := some "verif_001" }

def exResult1 : VerifyResult :=
  { valid := true, meetsMinAge := true, requiredMinAge := 18,
    assertedAgeOver := 18, nonce := "nonce_1700000000",
    subjectRef := some "user_123", proofRequestId := some exUuidP,
    verifierRef := some "verif_001", issuer := some "proofage-rail",
    audience := some "ext_a", issuedAt := some 1000, expiresAt := some 1600 }

def exEntry1 : AssertionUse :=
  { tokenJti := exUuidJ, nonce := "nonce_1700000000",
    subjectRef := some "user_123", merchantId := "merch_a",
    proofRequestId := some exUuidP, expiresAt := some 1600 }

def exOps : List ServerKeyOp :=
  [.auth (some "secret_key_16chr") true 8,
   .createKey exCtxA "backend-main" "fresh_plain_key_32" "ckey00000003",
   .revoke exCtxA "ckey00000003" (some "other_key_123456") 9]

/-! ### Helper lemmas about the verify pipeline -/

lemma jwtVerifyCheck_payload {tok : Assertion} {aud : String} {now : Int}
    {p : JwtPayload} (h : jwtVerifyCheck tok aud now = some p) :
    p = tok.payload := by
  unfold jwtVerifyCheck at h
  split at h
  · exact (Option.some.injEq _ _ ▸ h).symm
  · exact absurd h (by simp)

lemma verifyAssertion_of_invalidBody {ledger : List AssertionUse}
    {ctx : MerchantContext} {req : VerifyRequest} {now : Int}
    (hb : verifyBodyValid req = false) :
    verifyAssertion ledger ctx req now = (.invalidRequest, ledger) := by
  simp [verifyAssertion, hb]

lemma verifyAssertion_of_jwtFail {ledger : List AssertionUse}
    {ctx : MerchantContext} {req : VerifyRequest} {now : Int}
    (hb : verifyBodyValid req = true)
    (hj : jwtVerifyCheck req.assertion ctx.merchantExternalRef now = none) :
    verifyAssertion ledger ctx req now = (.invalidAssertion, ledger) := by
  simp [verifyAssertion, hb, hj]

lemma verifyAssertion_of_shapeFail {ledger : List AssertionUse}
    {ctx : MerchantContext} {req : VerifyRequest} {now : Int}
    {payload : JwtPayload}
    (hb : verifyBodyValid req = true)
    (hj : jwtVerifyCheck req.assertion ctx.merchantExternalRef now = some payload)
    (hp : parseAssertionPayload payload = none) :
    verifyAssertion ledger ctx req now = (.invalidClaims, ledger) := by
  simp [verifyAssertion, hb, hj, hp]

lemma verifyAssertion_of_nonceMismatch {ledger : List AssertionUse}
    {ctx : MerchantContext} {req : VerifyRequest} {now : Int}
    {payload : JwtPayload} {parsed : ParsedPayload}
    (hb : verifyBodyValid req = true)
    (hj : jwtVerifyCheck req.assertion ctx.merchantExternalRef now = some payload)
    (hp : parseAssertionPayload payload = some parsed)
    (hn : parsed.nonce ≠ req.expectedNonce) :
    verifyAssertion ledger ctx req now = (.nonceMismatch, ledger) := by
  simp [verifyAssertion, hb, hj, hp, hn]

lemma verifyAssertion_of_subjectMismatch {ledger : List AssertionUse}
    {ctx : MerchantContext} {req : VerifyRequest} {now : Int}
    {payload : JwtPayload} {parsed : ParsedPayload} {s : String}
    (hb : verifyBodyValid req = true)
    (hj : jwtVerifyCheck req.assertion ctx.merchantExternalRef now = some payload)
    (hp : parseAssertionPayload payload = some parsed)
    (hn : parsed.nonce = req.expectedNonce)
    (hs : req.expectedSubjectRef = some s)
    (hsub : payload.sub ≠ some s) :
    verifyAssertion ledger ctx req now = (.subjectMismatch, ledger) := by
  simp [verifyAssertion, hb, hj, hp, hn, hs, hsub]

lemma verifyAssertion_of_noJti {ledger : List AssertionUse}
    {ctx : MerchantContext} {req : VerifyRequest} {now : Int}
    {payload : JwtPayload} {parsed : ParsedPayload}
    (hb : verifyBodyValid req = true)
    (hj : jwtVerifyCheck req.assertion ctx.merchantExternalRef now = some payload)
    (hp : parseAssertionPayload payload = some parsed)
    (hn : parsed.nonce = req.expectedNonce)
    (hsub : ∀ s, req.expectedSubjectRef = some s → payload.sub = some s)
    (hjti : payload.jti = none) :
    verifyAssertion ledger ctx req now = (.invalidClaims, ledger) := by
  have hsubb : (match req.expectedSubjectRef with
      | some s => payload.sub != some s
      | none => false) = false := by
    cases hse : req.expectedSubjectRef with
    | none => rfl
    | some s => simp [hsub s hse]
  simp [verifyAssertion, hb, hj, hp, hn, hsubb, hjti]

lemma verifyAssertion_of_shortJti {ledger : List AssertionUse}
    {ctx : MerchantContext} {req : VerifyRequest} {now : Int}
    {payload : JwtPayload} {parsed : ParsedPayload} {j : String}
    (hb : verifyBodyValid req = true)
    (hj : jwtVerifyCheck req.assertion ctx.merchantExternalRef now = some payload)
    (hp : parseAssertionPayload payload = some parsed)
    (hn : parsed.nonce = req.expectedNonce)
    (hsub : ∀ s, req.expectedSubjectRef = some s → payload.sub = some s)
    (hjti : payload.jti = some j) (hlen : j.length < 8) :
    verifyAssertion ledger ctx req now = (.invalidClaims, ledger) := by
  have hsubb : (match req.expectedSubjectRef with
      | some s => payload.sub != some s
      | none => false) = false := by
    cases hse : req.expectedSubjectRef with
    | none => rfl
    | some s => simp [hsub s hse]
  simp [verifyAssertion, hb, hj, hp, hn, hsubb, hjti, hlen]

lemma verifyAssertion_of_duplicateJti {ledger : List AssertionUse}
    {ctx : MerchantContext} {req : VerifyRequest} {now : Int}
    {payload : JwtPayload} {parsed : ParsedPayload} {j : String}
    (hb : verifyBodyValid req = true)
    (hj : jwtVerifyCheck req.assertion ctx.merchantExternalRef now = some payload)
    (hp : parseAssertionPayload payload = some parsed)
    (hn : parsed.nonce = req.expectedNonce)
    (hsub : ∀ s, req.expectedSubjectRef = some s → payload.sub = some s)
    (hjti : payload.jti = some j) (hlen : 8 ≤ j.length)
    (hdup : ∃ u ∈ ledger, u.tokenJti = j) :
    verifyAssertion ledger ctx req now = (.replayed, ledger) := by
  have hsubb : (match req.expectedSubjectRef with
      | some s => payload.sub != some s
      | none => false) = false := by
    cases hse : req.expectedSubjectRef with
    | none => rfl
    | some s => simp [hsub s hse]
  have hany : (ledger.any fun u => u.tokenJti == j) = true := by
    rw [List.any_eq_true]
    obtain ⟨u, hu, huj⟩ := hdup
    exact ⟨u, hu, by simp [huj]⟩
  have hins : assertionUseCreate ledger
      { tokenJti := j, nonce := req.expectedNonce, subjectRef := payload.sub,
        merchantId := ctx.merchantId,
        proofRequestId := parsed.proof_request_id,
        expiresAt := payload.exp } = none := by
    simp [assertionUseCreate, hany]
  simp [verifyAssertion, hb, hj, hp, hn, hsubb, hjti, Nat.not_lt.mpr hlen, hins]

lemma verifyAssertion_of_freshJti {ledger : List AssertionUse}
    {ctx : MerchantContext} {req : VerifyRequest} {now : Int}
    {payload : JwtPayload} {parsed : ParsedPayload} {j : String}
    (hb : verifyBodyValid req = true)
    (hj : jwtVerifyCheck req.assertion ctx.merchantExternalRef now = some payload)
    (hp : parseAssertionPayload payload = some parsed)
    (hn : parsed.nonce = req.expectedNonce)
    (hsub : ∀ s, req.expectedSubjectRef = some s → payload.sub = some s)
    (hjti : payload.jti = some j) (hlen : 8 ≤ j.length)
    (hfresh : ∀ u ∈ ledger, u.tokenJti ≠ j) :
    verifyAssertion ledger ctx req now =
      (.success
        { valid := true
          meetsMinAge := decide (parsed.age_over ≥ req.requiredMinAge)
          requiredMinAge := req.requiredMinAge
          assertedAgeOver := parsed.age_over
          nonce := parsed.nonce
          subjectRef := payload.sub
          proofRequestId := parsed.proof_request_id
          verifierRef := parsed.verifier_ref
          issuer := payload.iss
          audience := payload.aud
          issuedAt := payload.iat
          expiresAt := payload.exp },
       ledger ++
         [{ tokenJti := j, nonce := parsed.nonce, subjectRef := payload.sub,
            merchantId := ctx.merchantId,
            proofRequestId := parsed.proof_request_id,
            expiresAt := payload.exp }]) := by
  have hsubb : (match req.expectedSubjectRef with
      | some s => payload.sub != some s
      | none => false) = false := by
    cases hse : req.expectedSubjectRef with
    | none => rfl
    | some s => simp [hsub s hse]
  have hany : (ledger.any fun u => u.tokenJti == j) = false := by
    rw [List.any_eq_false]
    intro u hu
    simp [hfresh u hu]
  have hins : assertionUseCreate ledger
      { tokenJti := j, nonce := req.expectedNonce, subjectRef := payload.sub,
        merchantId := ctx.merchantId,
        proofRequestId := parsed.proof_request_id,
        expiresAt := payload.exp } =
      some (ledger ++
        [{ tokenJti := j, nonce := req.expectedNonce, subjectRef := payload.sub,
           merchantId := ctx.merchantId,
           proofRequestId := parsed.proof_request_id,
           expiresAt := payload.exp }]) := by
    simp [assertionUseCreate, hany]
  simp [verifyAssertion, hb, hj, hp, hn, hsubb, hjti, Nat.not_lt.mpr hlen, hins]

lemma assertionUseCreate_eq_some {ledger L2 : List AssertionUse}
    {entry : AssertionUse}
    (h : assertionUseCreate ledger entry = some L2) :
    L2 = ledger ++ [entry] ∧ ∀ u ∈ ledger, u.tokenJti ≠ entry.tokenJti := by
  unfold assertionUseCreate at h
  split at h
  · exact absurd h (by simp)
  · next hany =>
    refine ⟨(Option.some.injEq _ _ ▸ h).symm, ?_⟩
    intro u hu hequ
    rw [List.any_eq_true] at hany
    exact hany ⟨u, hu, by simp [hequ]⟩

lemma assertionUseCreate_eq_none {ledger : List AssertionUse}
    {entry : AssertionUse}
    (h : assertionUseCreate ledger entry = none) :
    ∃ u ∈ ledger, u.tokenJti = entry.tokenJti := by
  unfold assertionUseCreate at h
  split at h
  · next hany =>
    rw [List.any_eq_true] at hany
    obtain ⟨u, hu, huj⟩ := hany
    exact ⟨u, hu, by simpa using huj⟩
  · exact absurd h (by simp)

lemma verifyAssertion_success_fresh (ledger : List AssertionUse)
    (ctx : MerchantContext) (req : VerifyRequest) (now : Int) :
    isSuccessOutcome (verifyAssertion ledger ctx req now).1 = true →
    ∃ j, reqTokenJti req = some j ∧ (∀ u ∈ ledger, u.tokenJti ≠ j) ∧
      ∃ u ∈ (verifyAssertion ledger ctx req now).2, u.tokenJti = j := by
  unfold verifyAssertion
  repeat' split
  all_goals intro h
  any_goals exact Bool.noConfusion h
  rename_i hbody xp payload hj xq parsed hp hn hsb xj jti hjti hlen xi ledger2 hins
  obtain ⟨hL2, hfresh⟩ := assertionUseCreate_eq_some hins
  refine ⟨jti, ?_, ?_, ?_⟩
  · rw [reqTokenJti, ← jwtVerifyCheck_payload hj, hjti]
  · exact fun u hu => hfresh u hu
  · exact ⟨_, by rw [hL2]; exact List.mem_append_right _ (List.mem_singleton.mpr rfl), rfl⟩

lemma verifyAssertion_replayed_dup (ledger : List AssertionUse)
    (ctx : MerchantContext) (req : VerifyRequest) (now : Int) :
    (verifyAssertion ledger ctx req now).1 = .replayed →
    ∃ j, reqTokenJti req = some j ∧ ∃ u ∈ ledger, u.tokenJti = j := by
  unfold verifyAssertion
  repeat' split
  all_goals intro h
  any_goals exact VerifyOutcome.noConfusion h
  rename_i hbody xp payload hj xq parsed hp hn hsb xj jti hjti hlen xi hins
  obtain ⟨u, hu, huj⟩ := assertionUseCreate_eq_none hins
  exact ⟨jti, by rw [reqTokenJti, ← jwtVerifyCheck_payload hj, hjti], u, hu, huj⟩

/-! ### Helper lemmas about the credential store -/

/-- The spec's ApiKey invariant: the hash is unique across all keys. -/
def hashUnique (keys : List ApiKey) : Prop :=
  keys.Pairwise (fun a b => a.keyHash ≠ b.keyHash)

lemma eq_of_hashUnique {keys : List ApiKey} {a b : ApiKey}
    (hu : hashUnique keys) (ha : a ∈ keys) (hb : b ∈ keys)
    (heq : a.keyHash = b.keyHash) : a = b := by
  by_contra hne
  have hsymm : Symmetric (fun a b : ApiKey => a.keyHash ≠ b.keyHash) :=
    fun x y hxy h => hxy h.symm
  exact hu.forall hsymm ha hb hne heq

lemma hashFullyRevoked_map {keys : List ApiKey} {h : String}
    {f : ApiKey → ApiKey}
    (hf : ∀ k, (f k).keyHash = k.keyHash ∧
      ((f k).revokedAt = none → k.revokedAt = none))
    (hk : hashFullyRevoked keys h) : hashFullyRevoked (keys.map f) h := by
  obtain ⟨⟨k0, hk0, hh0⟩, hall⟩ := hk
  constructor
  · exact ⟨f k0, List.mem_map_of_mem f hk0, (hf k0).1.trans hh0⟩
  · intro k' hk' hh' hnone
    obtain ⟨k, hkmem, rfl⟩ := List.mem_map.mp hk'
    exact hall k hkmem ((hf k).1.symm.trans hh') ((hf k).2 hnone)

lemma authenticateMerchant_snd (sha256 : String → String)
    (keys : List ApiKey) (merchants : List Merchant)
    (header : Option String) (u : Bool) (now : Nat) :
    (authenticateMerchant sha256 keys merchants header u now).2 = keys ∨
    ∃ i, (authenticateMerchant sha256 keys merchants header u now).2 =
      keys.map (fun k =>
        if k.id = i then { k with lastUsedAt := some now } else k) := by
  unfold authenticateMerchant
  repeat' split
  all_goals first
  | exact Or.inl rfl
  | exact Or.inr ⟨_, rfl⟩

lemma revokeKey_snd (sha256 : String → String) (keys : List ApiKey)
    (ctx : MerchantContext) (pid : String) (hdr : Option String) (now : Nat) :
    (revokeKey sha256 keys ctx pid hdr now).2 = keys ∨
    ∃ i, (revokeKey sha256 keys ctx pid hdr now).2 =
      keys.map (fun k =>
        if k.id = i then { k with revokedAt := some now } else k) := by
  unfold revokeKey
  repeat' split
  all_goals first
  | exact Or.inl rfl
  | exact Or.inr ⟨_, rfl⟩

lemma hashFullyRevoked_applyServerKeyOp (sha256 : String → String)
    (merchants : List Merchant) (keys : List ApiKey) (op : ServerKeyOp)
    {h : String} (hk : hashFullyRevoked keys h) :
    hashFullyRevoked (applyServerKeyOp sha256 merchants keys op) h := by
  cases op with
  | auth header u now =>
    rcases authenticateMerchant_snd sha256 keys merchants header u now with
      heq | ⟨i, heq⟩
    · rw [applyServerKeyOp, heq]; exact hk
    · rw [applyServerKeyOp, heq]
      refine hashFullyRevoked_map (fun k => ?_) hk
      by_cases hi : k.id = i <;> simp [hi]
  | createKey ctx label plaintext freshId =>
    rw [applyServerKeyOp]
    unfold createApiKey
    split
    · exact hk
    · split
      · exact hk
      · next hlabel hany =>
        obtain ⟨⟨k0, hk0, hh0⟩, hall⟩ := hk
        constructor
        · exact ⟨k0, List.mem_append_left _ hk0, hh0⟩
        · intro k' hk' hh' hnone
          rcases List.mem_append.mp hk' with hin | hin
          · exact hall k' hin hh' hnone
          · have hk'eq := List.mem_singleton.mp hin
            have hps : sha256 plaintext = h := by
              rw [← hh', hk'eq]
            exact absurd (List.any_eq_true.mpr ⟨k0, hk0, by simp [hh0, hps]⟩)
              hany
  | revoke ctx pid hdr now =>
    rcases revokeKey_snd sha256 keys ctx pid hdr now with heq | ⟨i, heq⟩
    · rw [applyServerKeyOp, heq]; exact hk
    · rw [applyServerKeyOp, heq]
      refine hashFullyRevoked_map (fun k => ?_) hk
      by_cases hi : k.id = i <;> simp [hi]

lemma hashFullyRevoked_foldl (sha256 : String → String)
    (merchants : List Merchant) (ops : List ServerKeyOp) :
    ∀ keys, ∀ {h : String}, hashFullyRevoked keys h →
      hashFullyRevoked
        (ops.foldl (applyServerKeyOp sha256 merchants) keys) h := by
  induction ops with
  | nil => intro keys h hk; simpa using hk
  | cons op ops ih =>
    intro keys h hk
    exact ih _ (hashFullyRevoked_applyServerKeyOp sha256 merchants keys op hk)

lemma authenticateMerchant_of_fullyRevoked (sha256 : String → String)
    (keys : List ApiKey) (merchants : List Merchant) (key : String)
    (u : Bool) (now : Nat) (hk : hashFullyRevoked keys (sha256 key)) :
    (authenticateMerchant sha256 keys merchants (some key) u now).1 =
      .invalidApiKey := by
  have hf : keys.find?
      (fun k => k.keyHash == sha256 key && k.revokedAt.isNone) = none := by
    rw [List.find?_eq_none]
    intro k hkmem hcontra
    rw [Bool.and_eq_true, beq_iff_eq, Option.isNone_iff_eq_none] at hcontra
    exact hk.2 k hkmem hcontra.1 hcontra.2
  simp [authenticateMerchant, hf]

lemma authenticateMerchant_ok_iff (sha256 : String → String)
    (keys : List ApiKey) (merchants : List Merchant) (key : String)
    (now : Nat) (hm : ∀ k ∈ keys, ∃ m ∈ merchants, m.id = k.merchantId) :
    (∃ ctx, (authenticateMerchant sha256 keys merchants (some key) true now).1
        = .ok ctx) ↔
    ∃ k ∈ keys, k.keyHash = sha256 key ∧ k.revokedAt = none := by
  constructor
  · rintro ⟨ctx, hctx⟩
    cases hf : keys.find?
        (fun k => k.keyHash == sha256 key && k.revokedAt.isNone) with
    | none => rw [authenticateMerchant] at hctx; simp [hf] at hctx
    | some k =>
      have hpk := List.find?_some hf
      rw [Bool.and_eq_true, beq_iff_eq, Option.isNone_iff_eq_none] at hpk
      exact ⟨k, List.mem_of_find?_eq_some hf, hpk.1, hpk.2⟩
  · rintro ⟨k, hkmem, hh, hr⟩
    have hfs : (keys.find?
        (fun k => k.keyHash == sha256 key && k.revokedAt.isNone)).isSome := by
      rw [List.find?_isSome]
      exact ⟨k, hkmem, by simp [hh, hr]⟩
    obtain ⟨k', hf⟩ := Option.isSome_iff_exists.mp hfs
    obtain ⟨m, hmmem, hmid⟩ := hm k' (List.mem_of_find?_eq_some hf)
    have hfms : (merchants.find? (fun m => m.id == k'.merchantId)).isSome := by
      rw [List.find?_isSome]
      exact ⟨m, hmmem, by simp [hmid]⟩
    obtain ⟨m', hfm⟩ := Option.isSome_iff_exists.mp hfms
    exact ⟨⟨k'.merchantId, m'.externalRef⟩,
      by simp [authenticateMerchant, hf, hfm]⟩

lemma revokeKey_establishes (sha256 : String → String) (keys : List ApiKey)
    (ctx : MerchantContext) (pid : String) (hdr : Option String) (now : Nat)
    (tid : String) (keys' : List ApiKey) (hu : hashUnique keys)
    (hrev : revokeKey sha256 keys ctx pid hdr now = (.okRevoked tid, keys'))
    {k0 : ApiKey} (hk0 : k0 ∈ keys) (hid : k0.id = tid) :
    hashFullyRevoked keys' k0.keyHash := by
  unfold revokeKey at hrev
  repeat' split at hrev
  any_goals exact RevokeOutcome.noConfusion (congrArg Prod.fst hrev)
  rename_i hcuid xf target hfind hcur hrv
  rw [Prod.mk.injEq] at hrev
  obtain ⟨htid, hkeys'⟩ := hrev
  rw [RevokeOutcome.okRevoked.injEq] at htid
  constructor
  · refine ⟨if k0.id = target.id then { k0 with revokedAt := some now }
      else k0, ?_, ?_⟩
    · rw [← hkeys']
      exact List.mem_map_of_mem _ hk0
    · by_cases hi : k0.id = target.id <;> simp [hi]
  · intro k' hk' hh' hnone
    rw [← hkeys'] at hk'
    obtain ⟨k, hkmem, rfl⟩ := List.mem_map.mp hk'
    have hkhash : k.keyHash = k0.keyHash := by
      by_cases hi : k.id = target.id <;> simpa [hi] using hh'
    have hkk0 : k = k0 := eq_of_hashUnique hu hkmem hk0 hkhash
    subst hkk0
    rw [hid, htid] at hnone
    simp at hnone

/-! ### Claim C2 -/

/-- C2, counterexample: a proof request already in the terminal status
`passed` is flipped to `failed` by a later callback — the handler overwrites
the status unconditionally, so status transitions are NOT monotonic as the
claim states. -/
theorem C2_counterexample :
    exProofPassed.status = PStatus.passed ∧
    (applyCallback [exProofPassed] exUuidP .failed "verif_002").1 =
      CallbackOutcome.ok ∧
    (applyCallback [exProofPassed] exUuidP .failed "verif_002").2 =
      [exProofFailed] ∧
    exProofFailed.status ≠ PStatus.passed := by
  exact ⟨rfl, rfl, rfl, by decide⟩

/-- C2, amended: the callback handler never mutates `subjectRef`, `minAge`
(or `merchantId`, `id`) of any row — those fields are immutable — but it
overwrites `status` with the callback result unconditionally, even when the
current status is terminal. -/
theorem C2_amended (db : List ProofRequest) (pid : String)
    (result : CallbackResult) (vref : String) :
    (∀ r' ∈ (applyCallback db pid result vref).2, ∃ r ∈ db,
      r'.id = r.id ∧ r'.merchantId = r.merchantId ∧
      r'.subjectRef = r.subjectRef ∧ r'.minAge = r.minAge) ∧
    ((applyCallback db pid result vref).1 = .ok →
      ∀ r' ∈ (applyCallback db pid result vref).2, r'.id = pid →
        r'.status = callbackResultStatus result) := by
  unfold applyCallback
  split
  · refine ⟨fun r' hr' => ⟨r', hr', rfl, rfl, rfl, rfl⟩, fun h => ?_⟩
    exact absurd h (by simp)
  · split
    · refine ⟨fun r' hr' => ⟨r', hr', rfl, rfl, rfl, rfl⟩, fun h => ?_⟩
      exact absurd h (by simp)
    · constructor
      · intro r' hr'
        obtain ⟨r, hr, rfl⟩ := List.mem_map.mp hr'
        by_cases hi : r.id = pid
        · exact ⟨r, hr, by simp [hi], by simp [hi], by simp [hi], by simp [hi]⟩
        · exact ⟨r, hr, by simp [hi], by simp [hi], by simp [hi], by simp [hi]⟩
      · intro _ r' hr' hid
        obtain ⟨r, hr, rfl⟩ := List.mem_map.mp hr'
        by_cases hi : r.id = pid
        · simp [hi]
        · rw [if_neg hi] at hid ⊢
          exact absurd hid hi

/-- C2, witness: applying the amended theorem to the concrete flipped
record shows its status equals the callback result. -/
theorem C2_witness :
    exProofFailed.status = callbackResultStatus CallbackResult.failed := by
  have h := (C2_amended [exProofPassed] exUuidP CallbackResult.failed
    "verif_002").2 rfl
  exact h exProofFailed (by decide) rfl

/-! ### Claim C4 -/

/-- C4, counterexample: with an active matching key present, a failing
last-used-time update makes the whole authentication call fail (the update
is awaited without try/catch, so the rejection propagates as a 5xx) instead
of still returning the owning merchant's identifiers. -/
theorem C4_counterexample :
    (authenticateMerchant exHash [exKeyActive] [exMerchantA]
      (some "secret_key_16chr") false 5).1 = AuthOutcome.storageFailure ∧
    AuthOutcome.storageFailure ≠
      AuthOutcome.ok ⟨"merch_a", "ext_a"⟩ := by
  exact ⟨rfl, by decide⟩

/-- C4, amended: the last-used update is NOT best-effort.  When an active
matching key is found, a failing update aborts the call with a storage
failure (the table unchanged); only when the update succeeds does the call
return the owning merchant's internal id and external reference. -/
theorem C4_amended (sha256 : String → String) (keys : List ApiKey)
    (merchants : List Merchant) (hdr : String) (now : Nat) (k : ApiKey)
    (m : Merchant)
    (hf : keys.find? (fun k =>
      k.keyHash == sha256 hdr && k.revokedAt.isNone) = some k)
    (hm : merchants.find? (fun m2 => m2.id == k.merchantId) = some m) :
    authenticateMerchant sha256 keys merchants (some hdr) false now =
      (.storageFailure, keys) ∧
    (authenticateMerchant sha256 keys merchants (some hdr) true now).1 =
      .ok ⟨k.merchantId, m.externalRef⟩ := by
  constructor
  · simp [authenticateMerchant, hf, hm]
  · simp [authenticateMerchant, hf, hm]

/-- C4, witness: the amended theorem at the concrete active key. -/
theorem C4_witness :
    authenticateMerchant exHash [exKeyActive] [exMerchantA]
      (some "secret_key_16chr") false 5 =
      (.storageFailure, [exKeyActive]) ∧
    (authenticateMerchant exHash [exKeyActive] [exMerchantA]
      (some "secret_key_16chr") true 5).1 = .ok ⟨"merch_a", "ext_a"⟩ := by
  exact C4_amended exHash [exKeyActive] [exMerchantA] "secret_key_16chr" 5
    exKeyActive exMerchantA rfl rfl

/-! ### Claim C9 -/

/-- C9, counterexample: `subjectRef = "ab"` is a non-empty string and
`minAge = 18` lies in the 13–25 band, yet the creation is rejected — the
schema requires at least 3 characters, not merely non-emptiness. -/
theorem C9_counterexample :
    "ab" ≠ "" ∧ 13 ≤ (18 : Int) ∧ (18 : Int) ≤ 25 ∧
    (createRequest [] exCtxA "ab" (some 18) exUuidP).1 =
      CreateRequestOutcome.invalidRequest := by
  exact ⟨by decide, by decide, by decide, rfl⟩

/-- C9, amended: creation succeeds iff `subjectRef` has length at least 3
(not merely non-empty) and `minAge` (defaulting to 18 when omitted) lies in
13–25 inclusive; on success the stored row carries the fresh id, the
authenticated merchant, and status `pending`. -/
theorem C9_amended (db : List ProofRequest) (ctx : MerchantContext)
    (s : String) (a : Option Int) (fid : String) :
    ((createRequest db ctx s a fid).1 =
        .created fid ctx.merchantExternalRef .pending ↔
      3 ≤ s.length ∧ 13 ≤ a.getD 18 ∧ a.getD 18 ≤ 25) ∧
    (3 ≤ s.length → 13 ≤ a.getD 18 → a.getD 18 ≤ 25 →
      (createRequest db ctx s a fid).2 = db ++
        [{ id := fid, merchantId := ctx.merchantId, subjectRef := s,
           minAge := a.getD 18, status := .pending, verifierRef := none }]) := by
  have hiff : requestBodyValid s (a.getD 18) = true ↔
      (3 ≤ s.length ∧ 13 ≤ a.getD 18 ∧ a.getD 18 ≤ 25) := by
    simp [requestBodyValid, and_assoc, ge_iff_le]
  constructor
  · cases hv : requestBodyValid s (a.getD 18) with
    | true => simp [createRequest, hv, hiff.mp hv]
    | false =>
      have hnot := hiff.not.mp (by simp [hv])
      simp [createRequest, hv, hnot]
  · intro h1 h2 h3
    simp [createRequest, hiff.mpr ⟨h1, h2, h3⟩]

/-- C9, witness: the amended iff applied at a valid concrete input. -/
theorem C9_witness :
    (createRequest [] exCtxA "user_123" (some 18) exUuidP).1 =
      .created exUuidP "ext_a" .pending := by
  exact ((C9_amended [] exCtxA "user_123" (some 18) exUuidP).1).mpr
    ⟨by decide, by decide, by decide⟩

/-! ### Claim C10 -/

/-- C10: in the assertion-issuance handler the proof's existence and
`passed` status are checked before the nonce query parameter is validated:
any request naming a proof whose status is not `passed` yields
`PROOF_NOT_PASSED` (409) for every nonce query value, malformed ones
included; conversely a nonce-validation error can only be observed when
the found proof has status `passed`. -/
theorem C10_status_before_nonce (db : List ProofRequest)
    (ctx : MerchantContext) (pid : String) (nq : Option String)
    (gn : String) (now ttl : Int) (jti : String) :
    (∀ r, isUuid pid = true →
      db.find? (fun x => x.id == pid && x.merchantId == ctx.merchantId) =
        some r →
      r.status ≠ .passed →
      getAssertion db ctx pid nq gn now ttl jti =
        .proofNotPassed 409 "PROOF_NOT_PASSED"
          "Age assertion is available only for passed proofs") ∧
    (∀ st cd msg,
      getAssertion db ctx pid nq gn now ttl jti = .invalidQuery st cd msg →
      ∃ r, db.find? (fun x =>
          x.id == pid && x.merchantId == ctx.merchantId) = some r ∧
        r.status = .passed) := by
  constructor
  · intro r hu hf hst
    simp [getAssertion, hu, hf, hst]
  · intro st cd msg h
    unfold getAssertion at h
    repeat' split at h
    any_goals exact IssueOutcome.noConfusion h
    rename_i hu xf r hf hst xq n hlen
    exact ⟨r, hf, not_not.mp hst⟩

/-- C10, witness: a pending proof with a malformed (1-character) nonce query
still yields `PROOF_NOT_PASSED`. -/
theorem C10_witness :
    getAssertion [exProofPendingA] exCtxA exUuidP (some "x") "gen_nonce"
      1000 600 exUuidJ =
      .proofNotPassed 409 "PROOF_NOT_PASSED"
        "Age assertion is available only for passed proofs" := by
  exact (C10_status_before_nonce [exProofPendingA] exCtxA exUuidP (some "x")
    "gen_nonce" 1000 600 exUuidJ).1 exProofPendingA (by decide) rfl
    (by decide)

/-! ### Claim C8 -/

/-- C8: for both the status and the assertion-issuance lookups, a request
that exists but is owned by a different merchant is indistinguishable from a
nonexistent one — the handler result equals the result on a store with every
row of that id removed, and (for a well-formed id) both are exactly the 404
response with code `NOT_FOUND` and message "proofRequestId not found". -/
theorem C8_cross_merchant_not_found (db : List ProofRequest)
    (ctx : MerchantContext) (pid : String) (nq : Option String) (gn : String)
    (now ttl : Int) (jti : String)
    (hother : ∀ r ∈ db, r.id = pid → r.merchantId ≠ ctx.merchantId) :
    getStatus db ctx pid =
      getStatus (db.filter (fun r => !(r.id == pid))) ctx pid ∧
    getAssertion db ctx pid nq gn now ttl jti =
      getAssertion (db.filter (fun r => !(r.id == pid))) ctx pid nq gn now
        ttl jti ∧
    (isUuid pid = true →
      getStatus db ctx pid = .notFound 404 "NOT_FOUND"
        "proofRequestId not found" ∧
      getAssertion db ctx pid nq gn now ttl jti = .notFound 404 "NOT_FOUND"
        "proofRequestId not found") := by
  have hf : db.find? (fun x =>
      x.id == pid && x.merchantId == ctx.merchantId) = none := by
    rw [List.find?_eq_none]
    intro r hr hcontra
    rw [Bool.and_eq_true, beq_iff_eq, beq_iff_eq] at hcontra
    exact hother r hr hcontra.1 hcontra.2
  have hf2 : (db.filter (fun r => !(r.id == pid))).find? (fun x =>
      x.id == pid && x.merchantId == ctx.merchantId) = none := by
    rw [List.find?_eq_none]
    intro r hr hcontra
    rw [Bool.and_eq_true, beq_iff_eq, beq_iff_eq] at hcontra
    exact hother r (List.mem_of_mem_filter hr) hcontra.1 hcontra.2
  by_cases hu : isUuid pid
  · refine ⟨?_, ?_, fun _ => ⟨?_, ?_⟩⟩ <;>
      simp [getStatus, getAssertion, hu, hf, hf2]
  · refine ⟨?_, ?_, fun hcontra => absurd hcontra hu⟩ <;>
      simp [getStatus, getAssertion, hu]

/-- C8, witness: a passed proof owned by another merchant yields exactly the
not-found response for the caller. -/
theorem C8_witness :
    getStatus [exProofOtherMerchant] exCtxA exUuidP =
      .notFound 404 "NOT_FOUND" "proofRequestId not found" ∧
    getAssertion [exProofOtherMerchant] exCtxA exUuidP none "gen_nonce" 1000
      600 exUuidJ =
      .notFound 404 "NOT_FOUND" "proofRequestId not found" := by
  exact (C8_cross_merchant_not_found [exProofOtherMerchant] exCtxA exUuidP
    none "gen_nonce" 1000 600 exUuidJ (by decide)).2.2 (by decide)

/-! ### Claim C5 -/

/-- C5: the verify-assertion checks run in the source order and
short-circuit on the first failure — signature/issuer/audience/expiry
(single opaque `InvalidAssertion`), then claim-shape parsing
(`InvalidAssertionClaims`), then nonce comparison (`NonceMismatch`), then
subject comparison only when `expectedSubjectRef` was supplied
(`SubjectMismatch`), then jti presence and minimal well-formedness
(`InvalidAssertionClaims`), then the atomic ledger insert
(`AssertionReplayed`); only when every check passes is the success result
returned, with `meetsMinAge` computed as `age_over ≥ requiredMinAge`, and
no failure before the insert touches the ledger. -/
theorem C5_check_order (ledger : List AssertionUse) (ctx : MerchantContext)
    (req : VerifyRequest) (now : Int) :
    (verifyBodyValid req = false →
      verifyAssertion ledger ctx req now = (.invalidRequest, ledger)) ∧
    (verifyBodyValid req = true →
      (jwtVerifyCheck req.assertion ctx.merchantExternalRef now = none →
        verifyAssertion ledger ctx req now = (.invalidAssertion, ledger)) ∧
      (∀ payload,
        jwtVerifyCheck req.assertion ctx.merchantExternalRef now =
          some payload →
        (parseAssertionPayload payload = none →
          verifyAssertion ledger ctx req now = (.invalidClaims, ledger)) ∧
        (∀ parsed, parseAssertionPayload payload = some parsed →
          (parsed.nonce ≠ req.expectedNonce →
            verifyAssertion ledger ctx req now = (.nonceMismatch, ledger)) ∧
          (parsed.nonce = req.expectedNonce →
            (∀ s, req.expectedSubjectRef = some s → payload.sub ≠ some s →
              verifyAssertion ledger ctx req now =
                (.subjectMismatch, ledger)) ∧
            ((∀ s, req.expectedSubjectRef = some s →
                payload.sub = some s) →
              (payload.jti = none →
                verifyAssertion ledger ctx req now =
                  (.invalidClaims, ledger)) ∧
              (∀ j, payload.jti = some j →
                (j.length < 8 →
                  verifyAssertion ledger ctx req now =
                    (.invalidClaims, ledger)) ∧
                (8 ≤ j.length →
                  ((∃ u ∈ ledger, u.tokenJti = j) →
                    verifyAssertion ledger ctx req now =
                      (.replayed, ledger)) ∧
                  ((∀ u ∈ ledger, u.tokenJti ≠ j) →
                    verifyAssertion ledger ctx req now =
                      (.success
                        { valid := true
                          meetsMinAge :=
                            decide (parsed.age_over ≥ req.requiredMinAge)
                          requiredMinAge := req.requiredMinAge
                          assertedAgeOver := parsed.age_over
                          nonce := parsed.nonce
                          subjectRef := payload.sub
                          proofRequestId := parsed.proof_request_id
                          verifierRef := parsed.verifier_ref
                          issuer := payload.iss
                          audience := payload.aud
                          issuedAt := payload.iat
                          expiresAt := payload.exp },
                       ledger ++
                         [{ tokenJti := j, nonce := parsed.nonce,
                            subjectRef := payload.sub,
                            merchantId := ctx.merchantId,
                            proofRequestId := parsed.proof_request_id,
                            expiresAt := payload.exp }]))))))))) := by
  refine ⟨fun hb => verifyAssertion_of_invalidBody hb, fun hb => ?_⟩
  refine ⟨fun hj => verifyAssertion_of_jwtFail hb hj, fun payload hj => ?_⟩
  refine ⟨fun hp => verifyAssertion_of_shapeFail hb hj hp,
    fun parsed hp => ?_⟩
  refine ⟨fun hn => verifyAssertion_of_nonceMismatch hb hj hp hn,
    fun hn => ?_⟩
  refine ⟨fun s hs hsub =>
    verifyAssertion_of_subjectMismatch hb hj hp hn hs hsub,
    fun hsub => ?_⟩
  refine ⟨fun hjti => verifyAssertion_of_noJti hb hj hp hn hsub hjti,
    fun j hjti => ?_⟩
  refine ⟨fun hlen => verifyAssertion_of_shortJti hb hj hp hn hsub hjti hlen,
    fun hlen => ?_⟩
  exact ⟨fun hdup =>
    verifyAssertion_of_duplicateJti hb hj hp hn hsub hjti hlen hdup,
    fun hfresh =>
    verifyAssertion_of_freshJti hb hj hp hn hsub hjti hlen hfresh⟩

/-- C5, witness: the full pipeline at a concrete valid token produces the
success response and appends exactly one ledger row. -/
theorem C5_witness :
    verifyAssertion [] exCtxA exReq 1100 = (.success exResult1, [exEntry1])
    := by
  have h := C5_check_order [] exCtxA exReq 1100
  exact (((((((h.2 rfl).2 exTok.payload rfl).2 exParsed1 rfl).2 rfl).2
    (fun s hs => Option.noConfusion hs)).2 exUuidJ rfl).2 (by decide)).2
    (fun u hu => absurd hu (List.not_mem_nil u))

/-! ### Claim C6 -/

/-- C6: an assertion issued (signed, audience-bound) for nonce N1,
presented for verification with a different expected nonce N2, always
yields `NonceMismatch` — not `InvalidAssertion` and not success — for any
ledger state, provided the call reaches the pipeline (schema-valid body)
and the token is otherwise acceptable (in-band threshold, well-formed
claims, not expired). -/
theorem C6_nonce_binding (ledger : List AssertionUse) (proof : ProofRequest)
    (extRef n1 : String) (now0 ttl : Int) (jti : String)
    (ctx : MerchantContext) (req : VerifyRequest) (now : Int) (n2 : String)
    (hreq : req.assertion = buildAgeAssertion extRef proof n1 now0 ttl jti)
    (hctx : ctx.merchantExternalRef = extRef)
    (hbody : verifyBodyValid req = true)
    (hn2 : req.expectedNonce = n2)
    (hage1 : 13 ≤ proof.minAge) (hage2 : proof.minAge ≤ 25)
    (hn1a : 8 ≤ n1.length) (hn1b : n1.length ≤ 200)
    (hpid : isUuid proof.id = true)
    (hexp : now < now0 + ttl)
    (hne : n2 ≠ n1) :
    verifyAssertion ledger ctx req now = (.nonceMismatch, ledger) := by
  have hj : jwtVerifyCheck req.assertion ctx.merchantExternalRef now =
      some (buildAgeAssertion extRef proof n1 now0 ttl jti).payload := by
    rw [hreq, hctx]
    simp [jwtVerifyCheck, buildAgeAssertion, hexp]
  have hp : parseAssertionPayload
      (buildAgeAssertion extRef proof n1 now0 ttl jti).payload =
      some ⟨proof.minAge, n1, some proof.id, proof.verifierRef⟩ := by
    simp [parseAssertionPayload, buildAgeAssertion, hage1, hage2, hn1a,
      hn1b, hpid]
  exact verifyAssertion_of_nonceMismatch hbody hj hp
    (by rw [hn2]; exact fun hcontra => hne hcontra.symm)

/-- C6, witness: the concrete issued token with nonce
`nonce_1700000000` verified against expected nonce `nonce_other_9999`. -/
theorem C6_witness :
    verifyAssertion [] exCtxA exReqN2 1100 = (.nonceMismatch, []) := by
  exact C6_nonce_binding [] exProofPassed "ext_a" "nonce_1700000000" 1000
    600 exUuidJ exCtxA exReqN2 1100 "nonce_other_9999" rfl rfl rfl rfl
    (by decide) (by decide) (by decide) (by decide) (by decide) (by decide)
    (by decide)

/-! ### Claim C7 -/

/-- C7: an assertion issued for a proof whose threshold is T carries an
`age_over` claim equal to exactly T (the proof's `minAge`, never any other
value), and a successful verification of that token reports
`assertedAgeOver = T`. -/
theorem C7_age_over_exact (proof : ProofRequest) (extRef n : String)
    (now0 ttl : Int) (jti : String) (T : Int) (hT : proof.minAge = T)
    (ledger : List AssertionUse) (ctx : MerchantContext)
    (req : VerifyRequest) (now : Int)
    (hreq : req.assertion = buildAgeAssertion extRef proof n now0 ttl jti)
    (hctx : ctx.merchantExternalRef = extRef)
    (hbody : verifyBodyValid req = true)
    (hnonce : req.expectedNonce = n)
    (hage1 : 13 ≤ T) (hage2 : T ≤ 25)
    (hna : 8 ≤ n.length) (hnb : n.length ≤ 200)
    (hpid : isUuid proof.id = true)
    (hexp : now < now0 + ttl)
    (hsub : ∀ s, req.expectedSubjectRef = some s → proof.subjectRef = s)
    (hjlen : 8 ≤ jti.length)
    (hfresh : ∀ u ∈ ledger, u.tokenJti ≠ jti) :
    (buildAgeAssertion extRef proof n now0 ttl jti).payload.age_over =
      some T ∧
    assertedAgeOverOf (verifyAssertion ledger ctx req now).1 = some T := by
  subst hT
  refine ⟨by simp [buildAgeAssertion], ?_⟩
  have hj : jwtVerifyCheck req.assertion ctx.merchantExternalRef now =
      some (buildAgeAssertion extRef proof n now0 ttl jti).payload := by
    rw [hreq, hctx]
    simp [jwtVerifyCheck, buildAgeAssertion, hexp]
  have hp : parseAssertionPayload
      (buildAgeAssertion extRef proof n now0 ttl jti).payload =
      some ⟨proof.minAge, n, some proof.id, proof.verifierRef⟩ := by
    simp [parseAssertionPayload, buildAgeAssertion, hage1, hage2, hna,
      hnb, hpid]
  have hs := verifyAssertion_of_freshJti hbody hj hp (by rw [hnonce])
    (fun s hse => by
      have := hsub s hse
      simp [buildAgeAssertion, this])
    rfl hjlen hfresh
  simp [hs, assertedAgeOverOf]

/-- C7, witness: the concrete passed proof with threshold 18 yields a token
asserting `age_over = 18` and a verification reporting 18. -/
theorem C7_witness :
    (buildAgeAssertion "ext_a" exProofPassed "nonce_1700000000" 1000 600
      exUuidJ).payload.age_over = some 18 ∧
    assertedAgeOverOf (verifyAssertion [] exCtxA exReq 1100).1 = some 18
    := by
  exact C7_age_over_exact exProofPassed "ext_a" "nonce_1700000000" 1000 600
    exUuidJ 18 rfl [] exCtxA exReq 1100 rfl rfl rfl rfl (by decide)
    (by decide) (by decide) (by decide) (by decide) (by decide)
    (fun s hs => Option.noConfusion hs) (by decide)
    (fun u hu => absurd hu (List.not_mem_nil u))

/-! ### Claim C3 -/

/-- C3, counterexample: revoking the only key with a given hash makes
authentication with it fail, but the bootstrap seed script's upsert (keyed
by the hash, with `revokedAt: null` in its update branch) REACTIVATES the
revoked key: a subsequent authenticate call with the same plaintext
succeeds again, contradicting "no operation reactivates a revoked key". -/
theorem C3_counterexample :
    (revokeKey exHash [exKeyActive] exCtxA "ckey00000001"
      (some "other_key_123456") 7).1 = .okRevoked "ckey00000001" ∧
    (revokeKey exHash [exKeyActive] exCtxA "ckey00000001"
      (some "other_key_123456") 7).2 = exKeysRevoked ∧
    (authenticateMerchant exHash exKeysRevoked [exMerchantA]
      (some "secret_key_16chr") true 8).1 = .invalidApiKey ∧
    seedApiKeyUpsert exHash exKeysRevoked "secret_key_16chr" "merch_a"
      "ckey00000002" = some [exKeyActive] ∧
    (authenticateMerchant exHash [exKeyActive] [exMerchantA]
      (some "secret_key_16chr") true 9).1 = .ok ⟨"merch_a", "ext_a"⟩ := by
  exact ⟨rfl, rfl, rfl, rfl, rfl⟩

/-- C3, amended: authentication succeeds iff some ApiKey with unset
revocation time has a hash equal to the digest of the presented value; once
a key is revoked (and it is the only key carrying its hash), every
server-API operation (authenticate, create key, revoke) preserves the
revocation, so subsequent authentication with that key keeps failing — but
the bootstrap seed script, which is outside the server API, can reactivate
it (see the counterexample). -/
theorem C3_amended :
    (∀ (sha256 : String → String) (keys : List ApiKey)
        (merchants : List Merchant) (key : String) (now : Nat),
      (∀ k ∈ keys, ∃ m ∈ merchants, m.id = k.merchantId) →
      ((∃ ctx, (authenticateMerchant sha256 keys merchants (some key) true
          now).1 = .ok ctx) ↔
        ∃ k ∈ keys, k.keyHash = sha256 key ∧ k.revokedAt = none)) ∧
    (∀ (sha256 : String → String) (keys : List ApiKey)
        (ctx : MerchantContext) (pid : String) (hdr : Option String)
        (now : Nat) (tid : String) (keys2 : List ApiKey) (k0 : ApiKey),
      hashUnique keys →
      revokeKey sha256 keys ctx pid hdr now = (.okRevoked tid, keys2) →
      k0 ∈ keys → k0.id = tid → hashFullyRevoked keys2 k0.keyHash) ∧
    (∀ (sha256 : String → String) (merchants : List Merchant)
        (ops : List ServerKeyOp) (keys : List ApiKey) (h : String),
      hashFullyRevoked keys h →
      hashFullyRevoked (ops.foldl (applyServerKeyOp sha256 merchants) keys)
        h) ∧
    (∀ (sha256 : String → String) (keys : List ApiKey)
        (merchants : List Merchant) (key : String) (u : Bool) (now : Nat),
      hashFullyRevoked keys (sha256 key) →
      (authenticateMerchant sha256 keys merchants (some key) u now).1 =
        .invalidApiKey) := by
  refine ⟨fun sha256 keys merchants key now hm =>
      authenticateMerchant_ok_iff sha256 keys merchants key now hm,
    fun sha256 keys ctx pid hdr now tid keys2 k0 hu hrev hmem hid =>
      revokeKey_establishes sha256 keys ctx pid hdr now tid keys2 hu hrev
        hmem hid,
    fun sha256 merchants ops keys h hk =>
      hashFullyRevoked_foldl sha256 merchants ops keys hk,
    fun sha256 keys merchants key u now hk =>
      authenticateMerchant_of_fullyRevoked sha256 keys merchants key u now
        hk⟩

/-- C3, witness: after the concrete revocation, a sequence of server-API
operations (an authenticate attempt, a key creation and another revoke)
leaves the revoked credential dead: authentication with it still fails. -/
theorem C3_witness :
    (authenticateMerchant exHash
      (exOps.foldl (applyServerKeyOp exHash [exMerchantA]) exKeysRevoked)
      [exMerchantA] (some "secret_key_16chr") true 10).1 =
      .invalidApiKey := by
  have h := C3_amended
  have hrevoked : hashFullyRevoked exKeysRevoked exKeyActive.keyHash :=
    h.2.1 exHash [exKeyActive] exCtxA "ckey00000001"
      (some "other_key_123456") 7 "ckey00000001" exKeysRevoked exKeyActive
      (by simp [hashUnique]) rfl (List.mem_singleton.mpr rfl) rfl
  exact h.2.2.2 exHash _ [exMerchantA] "secret_key_16chr" true 10
    (h.2.2.1 exHash [exMerchantA] exOps exKeysRevoked _ hrevoked)

/-! ### Claim C1 -/

/-- C1, counterexample: the same token verified twice against DIFFERENT
merchants does not always yield `AssertionReplayed` on the second attempt:
after merchant A's successful verification, merchant B's attempt with the
very same token fails the audience check and yields `InvalidAssertion`
(401), not `AssertionReplayed` (409). -/
theorem C1_counterexample :
    isSuccessOutcome (verifyAssertion [] exCtxA exReq 1100).1 = true ∧
    (verifyAssertion (verifyAssertion [] exCtxA exReq 1100).2 exCtxB exReq
      1100).1 = .invalidAssertion ∧
    VerifyOutcome.invalidAssertion ≠ VerifyOutcome.replayed := by
  exact ⟨rfl, rfl, by decide⟩

/-- C1, amended: a token succeeds at most once system-wide — after a
successful verification, no second verification presenting a token with the
same jti can succeed, for any merchant; a second attempt that passes all
pre-insert checks (which requires the verifying merchant's external
reference to match the token's audience) yields `AssertionReplayed`, and
the rejected ledger insert keyed by the jti is the sole mechanism producing
that outcome. -/
theorem C1_amended :
    (∀ (ledger : List AssertionUse) (ctx1 ctx2 : MerchantContext)
        (req1 req2 : VerifyRequest) (now1 now2 : Int) (r1 : VerifyResult),
      (verifyAssertion ledger ctx1 req1 now1).1 = .success r1 →
      reqTokenJti req2 = reqTokenJti req1 →
      isSuccessOutcome (verifyAssertion
        (verifyAssertion ledger ctx1 req1 now1).2 ctx2 req2 now2).1 =
        false) ∧
    (∀ (ledger : List AssertionUse) (ctx : MerchantContext)
        (req : VerifyRequest) (now : Int) (payload : JwtPayload)
        (parsed : ParsedPayload) (j : String),
      verifyBodyValid req = true →
      jwtVerifyCheck req.assertion ctx.merchantExternalRef now =
        some payload →
      parseAssertionPayload payload = some parsed →
      parsed.nonce = req.expectedNonce →
      (∀ s, req.expectedSubjectRef = some s → payload.sub = some s) →
      payload.jti = some j → 8 ≤ j.length →
      (∃ u ∈ ledger, u.tokenJti = j) →
      verifyAssertion ledger ctx req now = (.replayed, ledger)) ∧
    (∀ (ledger : List AssertionUse) (ctx : MerchantContext)
        (req : VerifyRequest) (now : Int),
      (verifyAssertion ledger ctx req now).1 = .replayed →
      ∃ j, reqTokenJti req = some j ∧ ∃ u ∈ ledger, u.tokenJti = j) := by
  refine ⟨?_, ?_, ?_⟩
  · intro ledger ctx1 ctx2 req1 req2 now1 now2 r1 h1 hjeq
    by_contra hc
    rw [Bool.not_eq_false] at hc
    obtain ⟨j2, hj2, hfresh2, _⟩ :=
      verifyAssertion_success_fresh _ ctx2 req2 now2 hc
    obtain ⟨j1, hj1, _, u, huL, huj⟩ :=
      verifyAssertion_success_fresh ledger ctx1 req1 now1 (by rw [h1]; rfl)
    have hj12 : some j1 = some j2 := by rw [← hj1, ← hjeq, hj2]
    injection hj12 with hjj
    exact hfresh2 u huL (huj.trans hjj)
  · intro ledger ctx req now payload parsed j hb hj hp hn hsub hjti hlen
      hdup
    exact verifyAssertion_of_duplicateJti hb hj hp hn hsub hjti hlen hdup
  · intro ledger ctx req now h
    exact verifyAssertion_replayed_dup ledger ctx req now h

/-- C1, witness: the concrete same-merchant second presentation of the
consumed token is rejected as replayed, with the ledger unchanged. -/
theorem C1_witness :
    verifyAssertion (verifyAssertion [] exCtxA exReq 1100).2 exCtxA exReq
      1100 = (.replayed, (verifyAssertion [] exCtxA exReq 1100).2) := by
  have h := C1_amended
  exact h.2.1 (verifyAssertion [] exCtxA exReq 1100).2 exCtxA exReq 1100
    exTok.payload exParsed1 exUuidJ rfl rfl rfl rfl
    (fun s hs => Option.noConfusion hs) rfl (by decide)
    ⟨exEntry1, by decide, rfl⟩

end ProofAge
